import Mathlib

/-!
Verification of the invoice_handler_frontend core logic: a shallow embedding
of the derived-field reconciliation engine, the paginated extraction loop and
the conflict-aware batch commit flow, followed by theorems settling the
behavioural claims about them.

JavaScript numbers are modelled exactly as rationals together with the
non-finite values `NaN` and `±Infinity`; `undefined` models an absent field.
`Math.round` corresponds to Mathlib's `round` (both are `⌊x + 1/2⌋`).
-/

namespace InvoiceHandler

/-- A JavaScript value as it can occur in the numeric invoice fields:
a finite number (kept exactly as a rational), `NaN`, `±Infinity`,
`undefined` (an absent field), or a string. -/
inductive JSVal where
  | num (q : ℚ)
  | nan
  | inf
  | ninf
  | undefined
  | str (s : String)
  deriving DecidableEq, Repr

/-- The check `typeof v === 'number'` — true for finite numbers, `NaN` and `±Infinity`. -/
def isNumber : JSVal → Bool
  | .num _ => true
  | .nan => true
  | .inf => true
  | .ninf => true
  | _ => false

/-- JavaScript truthiness of a value: `0`, `NaN`, `undefined` and `""` are falsy. -/
def truthy : JSVal → Bool
  | .num q => q ≠ 0
  | .nan => false
  | .inf => true
  | .ninf => true
  | .undefined => false
  | .str s => s ≠ ""

/-- The nullish coalescing `v ?? 0`. -/
def coalesce0 : JSVal → JSVal
  | .undefined => .num 0
  | v => v

/-- The logical-or fallback `v || 0` (falsy values replaced by `0`). -/
def orZero (v : JSVal) : JSVal := if truthy v then v else .num 0

/-- The expression `typeof v === 'number' ? v : 0` — the numberising pattern used by the
part_006 reconciler. -/
def numOr0 (v : JSVal) : JSVal := if isNumber v then v else .num 0

/-- JavaScript `+` on number-typed operands (string operands never reach the
arithmetic in the embedded code paths: every operand is guarded by a
`typeof === 'number'` check, numberised, or produced by `round2`). -/
def jadd : JSVal → JSVal → JSVal
  | .num a, .num b => .num (a + b)
  | .num _, .inf => .inf
  | .inf, .num _ => .inf
  | .num _, .ninf => .ninf
  | .ninf, .num _ => .ninf
  | .inf, .inf => .inf
  | .ninf, .ninf => .ninf
  | _, _ => .nan

/-- JavaScript `-` on number-typed operands. -/
def jsub : JSVal → JSVal → JSVal
  | .num a, .num b => .num (a - b)
  | .num _, .inf => .ninf
  | .inf, .num _ => .inf
  | .num _, .ninf => .inf
  | .ninf, .num _ => .ninf
  | .inf, .ninf => .inf
  | .ninf, .inf => .ninf
  | _, _ => .nan

/-- JavaScript `*` on number-typed operands. -/
def jmul : JSVal → JSVal → JSVal
  | .num a, .num b => .num (a * b)
  | .num a, .inf => if 0 < a then .inf else if a < 0 then .ninf else .nan
  | .inf, .num a => if 0 < a then .inf else if a < 0 then .ninf else .nan
  | .num a, .ninf => if 0 < a then .ninf else if a < 0 then .inf else .nan
  | .ninf, .num a => if 0 < a then .ninf else if a < 0 then .inf else .nan
  | .inf, .inf => .inf
  | .ninf, .ninf => .inf
  | .inf, .ninf => .ninf
  | .ninf, .inf => .ninf
  | _, _ => .nan

/-- JavaScript `/` on number-typed operands; division by zero yields
`±Infinity` (or `NaN` for `0/0`), exactly the cases `round2` later rejects. -/
def jdiv : JSVal → JSVal → JSVal
  | .num a, .num b =>
      if b = 0 then (if a = 0 then .nan else if 0 < a then .inf else .ninf)
      else .num (a / b)
  | .num _, .inf => .num 0
  | .num _, .ninf => .num 0
  | .inf, .num a => if 0 ≤ a then .inf else .ninf
  | .ninf, .num a => if 0 ≤ a then .ninf else .inf
  | _, _ => .nan

/-- The computation `Math.round(q * 100) / 100` on a finite number, in exact arithmetic.
Mathlib's `round` is `⌊x + 1/2⌋`, which agrees with JavaScript `Math.round`. -/
def round2q (q : ℚ) : ℚ := (round (q * 100) : ℚ) / 100

/-- The helper `const round2 = (n) => (typeof n === 'number' && isFinite(n) ?
Math.round(n * 100) / 100 : undefined)` — shared verbatim by
src/src/components/UploadPage.tsx line 94, part_006 line 166 and
part_011 line 109. -/
def round2 : JSVal → JSVal
  | .num q => .num (round2q q)
  | _ => .undefined

/-- A value is a finite number or absent (never `NaN` / `±Infinity`). -/
def finiteOrAbsent : JSVal → Bool
  | .num _ => true
  | .undefined => true
  | _ => false

/-- The editable field tags dispatched on by `handleUpdateResult`.
`other name` stands for any non-financial key of `InvoiceData`
(such edits are assigned verbatim and trigger no recomputation). -/
inductive Field where
  | subtotal
  | tax_amount
  | total
  | other (name : String)
  deriving DecidableEq, Repr

/-- One extracted document (`InvoiceData` of src/types/invoice): the three
financial fields carry full JavaScript values, the remaining typed fields are
kept as optional strings, and `extra` holds any further dynamically written
keys.  Display-only metadata (confidence maps, bounding boxes, line items,
page count) is opaque to every embedded operation and is not represented. -/
structure InvoiceData where
  file_name : String
  source_path : String
  language : String
  document_type : String
  supplier_name : Option String
  invoice_number : Option String
  invoice_date : Option String
  due_date : Option String
  payment_terms : Option String
  currency : Option String
  status : Option String
  subtotal : JSVal
  tax_amount : JSVal
  total : JSVal
  supplier_id : Option ℤ
  extra : List (String × JSVal)
  deriving DecidableEq, Repr

/-- Overwrite a dynamic key, as assignment on a JavaScript object does. -/
def setExtra (l : List (String × JSVal)) (k : String) (v : JSVal) :
    List (String × JSVal) :=
  (k, v) :: l.filter (fun p => p.1 ≠ k)

/-- The assignment `(inv as any)[field] = value` for the fields the reconciler dispatches on
(the guard `typeof value === 'number' ? value : (value !== undefined ? value :
undefined)` is the identity on every JavaScript value). -/
def setField (inv : InvoiceData) : Field → JSVal → InvoiceData
  | .subtotal, v => { inv with subtotal := v }
  | .tax_amount, v => { inv with tax_amount := v }
  | .total, v => { inv with total := v }
  | .other n, v => { inv with extra := setExtra inv.extra n v }

/-- Function `handleUpdateResult` of src/src/components/UploadPage.tsx lines 96-121
(identically part_011 lines 111-139): assign the edited field verbatim, then
recompute the dependent financial fields from the active VAT rate. -/
def handleUpdateResult (vatRate : ℚ) (inv0 : InvoiceData) (field : Field)
    (value : JSVal) : InvoiceData :=
  let inv := setField inv0 field value
  match field with
  | .subtotal =>
      if isNumber inv.subtotal then
        let inv := { inv with tax_amount := round2 (jmul inv.subtotal (.num vatRate)) }
        { inv with total := round2 (jadd inv.subtotal (coalesce0 inv.tax_amount)) }
      else inv
  | .tax_amount =>
      if isNumber inv.tax_amount then
        let inv := { inv with subtotal := round2 (jdiv inv.tax_amount (.num vatRate)) }
        { inv with total := round2 (jadd (coalesce0 inv.subtotal) inv.tax_amount) }
      else inv
  | .total =>
      if isNumber inv.total then
        let inv := { inv with subtotal := round2 (jdiv inv.total (.num (1 + vatRate))) }
        { inv with tax_amount := round2 (jmul (coalesce0 inv.subtotal) (.num vatRate)) }
      else inv
  | .other _ => inv

/-- Function `handleUpdateResult` of part_006 lines 168-196 (identically part_007):
the revision that reconciles `subtotal` from `total - tax_amount`.  The three
`if` blocks run in sequence on the already-assigned record. -/
def handleUpdateResultP6 (vatRate : ℚ) (inv0 : InvoiceData) (field : Field)
    (value : JSVal) : InvoiceData :=
  let inv := setField inv0 field value
  let inv :=
    if field = .subtotal ∨ field = .tax_amount then
      { inv with total := round2 (jadd (numOr0 inv.subtotal) (numOr0 inv.tax_amount)) }
    else inv
  let inv :=
    if field = .total ∨ field = .tax_amount then
      { inv with subtotal := round2 (jsub (numOr0 inv.total) (numOr0 inv.tax_amount)) }
    else inv
  if field = .total ∧ truthy inv.tax_amount = false then
    let vatRateCalc := if vatRate = 0 then (0 : ℚ) else vatRate
    let inv := { inv with subtotal := round2 (jdiv (numOr0 inv.total) (.num (1 + vatRateCalc))) }
    { inv with tax_amount := round2 (jsub (numOr0 inv.total) (orZero inv.subtotal)) }
  else inv

/-! ## Paginated extraction loop (src/src/components/UploadPage.tsx lines 42-77) -/

/-- One response page of the extraction endpoint (`ProcessResponse` of
src/types/invoice). -/
structure ProcessResponse where
  results : List InvoiceData
  errors : List String
  total_files : ℕ
  files_handled : ℕ
  vat_rate : Option ℚ
  deriving DecidableEq, Repr

/-- The mutable state of `handleFilesSelected`'s do-while loop, together with
the `results` / `vatRate` component state it writes and a count of the
requests issued. -/
structure LoopState where
  allResults : List InvoiceData
  allErrors : List String
  startingPoint : ℕ
  totalFiles : ℕ
  vatRate : ℚ
  requests : ℕ
  deriving DecidableEq, Repr

/-- State at the start of `handleFilesSelected`'s loop (the component's VAT
rate defaults to 0.18). -/
def initLoopState : LoopState :=
  { allResults := [], allErrors := [], startingPoint := 0, totalFiles := 0
    vatRate := 18 / 100, requests := 0 }

/-- One iteration body of the loop (UploadPage.tsx lines 54-75): latch
`totalFiles` on the first response, append the page's records and error
strings, adopt a reported VAT rate, advance the cursor by `files_handled`. -/
def stepPage (st : LoopState) (p : ProcessResponse) : LoopState :=
  { allResults := st.allResults ++ p.results
    allErrors := if 0 < p.errors.length then st.allErrors ++ p.errors else st.allErrors
    startingPoint := st.startingPoint + p.files_handled
    totalFiles := if st.totalFiles = 0 then p.total_files else st.totalFiles
    vatRate := match p.vat_rate with | some r => r | none => st.vatRate
    requests := st.requests + 1 }

/-- Outcome of running the loop against a finite script of pages. -/
inductive PagesOutcome where
  | completed (st : LoopState)
  | starved (st : LoopState)
  deriving DecidableEq, Repr

/-- The do-while loop of `handleFilesSelected`, driven by a finite script of
page responses standing for the injected extraction collaborator.  The body
always runs once; afterwards it repeats while `startingPoint < totalFiles`.
`starved` records that the loop still wanted a page when the script ended. -/
def runPages : List ProcessResponse → LoopState → PagesOutcome
  | [], st => .starved st
  | p :: ps, st =>
      let st' := stepPage st p
      if st'.startingPoint < st'.totalFiles then runPages ps st' else .completed st'

/-- Outcome of running the loop against a response oracle with bounded fuel. -/
inductive OracleOutcome where
  | completed (st : LoopState)
  | running (st : LoopState)
  deriving DecidableEq, Repr

/-- The same do-while loop driven by an oracle mapping the request's
`starting_point` to the server's response.  `running st` means the fuel ran
out with the loop condition still true — the loop had not terminated after
that many iterations. -/
def runOracle (oracle : ℕ → ProcessResponse) : ℕ → LoopState → OracleOutcome
  | 0, st => .running st
  | fuel + 1, st =>
      let st' := stepPage st (oracle st.startingPoint)
      if st'.startingPoint < st'.totalFiles then runOracle oracle fuel st'
      else .completed st'

/-! ## Conflict-gated batch commit (part_006 lines 205-358) -/

/-- One row of a batch-save response (`SaveInvoicesBatchResult`). -/
structure SaveRow where
  index : ℤ
  invoice_number : String
  inserted_id : Option ℤ
  supplier_id : Option ℤ
  is_update : Bool
  conflict : Bool
  error : Option String
  deriving DecidableEq, Repr

/-- A batch-save response (`SaveInvoicesBatchResponse`). -/
structure SaveResponse where
  results : List SaveRow
  deriving DecidableEq, Repr

/-- A conflict-check response; the conflict entries are only displayed, so
each is kept as its `{invoiceNumber, type, message}` strings. -/
structure ConflictCheckResponse where
  has_conflicts : Bool
  conflicts : List (String × String × String)
  deriving DecidableEq, Repr

/-- One element of the persistence payload (`SaveInvoicePayload`); the opaque
display metadata (`ocr_confidence`, `ocr_metadata`, `needs_review`) carried
along by the source is not represented. -/
structure SaveInvoicePayload where
  supplier_id : Option ℤ
  supplier_name : Option String
  invoice_number : String
  invoice_date : String
  due_date : Option String
  payment_terms : Option String
  currency : String
  subtotal : JSVal
  vat_amount : JSVal
  total : JSVal
  doc_name : String
  doc_full_path : String
  document_type : String
  status : String
  ocr_language : String
  deriving DecidableEq, Repr

/-- The coercion `Number(v)` on the values reaching the payload builder (always number
typed after `?? 0`). -/
def toNumber : JSVal → JSVal
  | .num q => .num q
  | .nan => .nan
  | .inf => .inf
  | .ninf => .ninf
  | _ => .nan

/-- The fallback `s || fallback` on strings. -/
def strOr (s : Option String) (fallback : String) : String :=
  match s with
  | some s => if s ≠ "" then s else fallback
  | none => fallback

/-- The per-record payload construction shared by `handleSaveSingle` and
`handleSaveAll` (part_006 lines 220-243 and 291-314). -/
def buildPayload (r : InvoiceData) : SaveInvoicePayload :=
  { supplier_id := r.supplier_id
    supplier_name := r.supplier_name
    invoice_number := strOr r.invoice_number r.file_name
    invoice_date := ((r.invoice_date).getD "").take 10
    due_date := match r.due_date with
      | some s => if s ≠ "" then some (s.take 10) else none
      | none => none
    payment_terms := r.payment_terms
    currency := strOr r.currency "ILS"
    subtotal := toNumber (coalesce0 r.subtotal)
    vat_amount := toNumber (coalesce0 r.tax_amount)
    total := toNumber (coalesce0 r.total)
    doc_name := r.file_name
    doc_full_path := r.source_path
    document_type := if r.document_type ≠ "" then r.document_type else "invoice"
    status := strOr r.status "pending"
    ocr_language := r.language }

/-- The `savedInvoiceIds` mapping (`Record<number, number>`): record index to
persisted invoice id. -/
def savedLookup (ids : List (ℕ × ℤ)) (i : ℕ) : Option ℤ :=
  (ids.find? (fun p => p.1 = i)).map (fun p => p.2)

/-- Truthiness of `savedInvoiceIds[idx]`: present and nonzero. -/
def savedTruthy (ids : List (ℕ × ℤ)) (i : ℕ) : Bool :=
  match savedLookup ids i with
  | some v => v ≠ 0
  | none => false

/-- The pattern `list.filter((_, idx) => p idx)` — filtering by element index. -/
def filterIdxAux {α : Type} (p : ℕ → Bool) : ℕ → List α → List α
  | _, [] => []
  | i, a :: as =>
      if p i then a :: filterIdxAux p (i + 1) as else filterIdxAux p (i + 1) as

/-- Index-based filter starting at index 0. -/
def filterIdx {α : Type} (l : List α) (p : ℕ → Bool) : List α :=
  filterIdxAux p 0 l

/-- Truthiness of the `customerId` state (`number | ''`): falsy when empty
(`none`) or the number 0. -/
def customerTruthy : Option ℤ → Bool
  | some c => c ≠ 0
  | none => false

/-- Truthiness of a row's `error` string. -/
def rowErrTruthy (row : SaveRow) : Bool :=
  match row.error with
  | some s => s ≠ ""
  | none => false

/-- The count `resp.results.filter(r => r.error).length`. -/
def errorCount (resp : SaveResponse) : ℕ :=
  (resp.results.filter rowErrTruthy).length

/-- The externally visible effect of one commit attempt: whether and with
what payload the conflict gate and the persistence write were invoked, and
the session state (`results`, `savedInvoiceIds`) plus error banner after. -/
structure CommitTrace where
  conflictChecked : Bool
  conflictPayload : List SaveInvoicePayload
  saveCalled : Bool
  savePayload : List SaveInvoicePayload
  results : List InvoiceData
  savedInvoiceIds : List (ℕ × ℤ)
  errorMsg : Option String
  deriving DecidableEq, Repr

/-- Function `handleSaveSingle` of part_006 lines 205-280, with the two network
round-trips (`checkInvoiceConflicts`, `saveInvoicesBatch`) supplied as the
responses the collaborators would return.  `customerId : Option ℤ` is `''`
(none) or a number; `!customerId` is falsy also for the number 0. -/
def handleSaveSingle (customerId : Option ℤ) (results : List InvoiceData)
    (savedIds : List (ℕ × ℤ)) (index : ℕ)
    (conflictResp : ConflictCheckResponse) (saveResp : SaveResponse) :
    CommitTrace :=
  if customerTruthy customerId = false then
    { conflictChecked := false, conflictPayload := [], saveCalled := false
      savePayload := [], results := results, savedInvoiceIds := savedIds
      errorMsg := some "Please enter a customer ID" }
  else
    match results[index]? with
    | none =>
        { conflictChecked := false, conflictPayload := [], saveCalled := false
          savePayload := [], results := results, savedInvoiceIds := savedIds
          errorMsg := none }
    | some r =>
        let payload := [buildPayload r]
        if conflictResp.has_conflicts then
          { conflictChecked := true, conflictPayload := payload
            saveCalled := false, savePayload := [], results := results
            savedInvoiceIds := savedIds, errorMsg := none }
        else
          match saveResp.results.head? with
          | some row =>
              if rowErrTruthy row then
                { conflictChecked := true, conflictPayload := payload
                  saveCalled := true, savePayload := payload, results := results
                  savedInvoiceIds := savedIds, errorMsg := row.error }
              else
                match row.inserted_id with
                | some iid =>
                    { conflictChecked := true, conflictPayload := payload
                      saveCalled := true, savePayload := payload
                      results :=
                        match row.supplier_id with
                        | some sid =>
                            results.set index { r with supplier_id := some sid }
                        | none => results
                      savedInvoiceIds := (index, iid) :: savedIds
                      errorMsg := none }
                | none =>
                    { conflictChecked := true, conflictPayload := payload
                      saveCalled := true, savePayload := payload
                      results := results, savedInvoiceIds := savedIds
                      errorMsg := none }
          | none =>
              { conflictChecked := true, conflictPayload := payload
                saveCalled := true, savePayload := payload, results := results
                savedInvoiceIds := savedIds, errorMsg := none }

/-- Function `handleSaveAll` of part_006 lines 282-358: build the full payload, run
the conflict gate over the not-yet-persisted records only, persist, then
clear the session when the response carries no row-level error. -/
def handleSaveAll (customerId : Option ℤ) (results : List InvoiceData)
    (savedIds : List (ℕ × ℤ))
    (conflictResp : ConflictCheckResponse) (saveResp : SaveResponse) :
    CommitTrace :=
  if customerTruthy customerId = false ∨ results.length = 0 then
    { conflictChecked := false, conflictPayload := [], saveCalled := false
      savePayload := [], results := results, savedInvoiceIds := savedIds
      errorMsg := none }
  else
    let payload := results.map buildPayload
    let unsaved := filterIdx results (fun idx => !savedTruthy savedIds idx)
    let gate :=
      if 0 < unsaved.length then
        some (filterIdx payload (fun idx => !savedTruthy savedIds idx))
      else none
    if conflictResp.has_conflicts ∧ gate.isSome then
      { conflictChecked := true, conflictPayload := gate.getD []
        saveCalled := false, savePayload := [], results := results
        savedInvoiceIds := savedIds, errorMsg := none }
    else
      if 0 < saveResp.results.length then
        if errorCount saveResp = 0 then
          { conflictChecked := gate.isSome, conflictPayload := gate.getD []
            saveCalled := true, savePayload := payload, results := []
            savedInvoiceIds := [], errorMsg := none }
        else
          { conflictChecked := gate.isSome, conflictPayload := gate.getD []
            saveCalled := true, savePayload := payload, results := results
            savedInvoiceIds := savedIds
            errorMsg := some "Completed with error(s)" }
      else
        { conflictChecked := gate.isSome, conflictPayload := gate.getD []
          saveCalled := true, savePayload := payload, results := results
          savedInvoiceIds := savedIds, errorMsg := none }

/-- The supplier-id merge of src/src/components/UploadPage.tsx
`handleSaveAll` lines 219-228: for each response row carrying a non-null
`supplier_id`, write it into the session record at `row.index` when that
index exists; rows with a null supplier id or an out-of-range index are
skipped. -/
def mergeSupplierIds (prev : List InvoiceData) (rows : List SaveRow) :
    List InvoiceData :=
  rows.foldl
    (fun updated row =>
      match row.supplier_id with
      | some sid =>
          updated.mapIdx (fun j r =>
            if (j : ℤ) = row.index then { r with supplier_id := some sid } else r)
      | none => updated)
    prev

/-- Specification-side description of the supplier id a record at index `j`
holds after the merge: the last response row addressing `j` with a non-null
supplier id wins, otherwise the starting value is kept. -/
def supplierAfter (rows : List SaveRow) (j : ℕ) (s0 : Option ℤ) : Option ℤ :=
  rows.foldl
    (fun s row =>
      match row.supplier_id with
      | some sid => if (j : ℤ) = row.index then some sid else s
      | none => s)
    s0

/-- A blank extracted document used to build concrete instances. -/
def mkDoc (name : String) : InvoiceData :=
  { file_name := name, source_path := "", language := "en"
    document_type := "invoice", supplier_name := none, invoice_number := none
    invoice_date := none, due_date := none, payment_terms := none
    currency := none, status := none, subtotal := .undefined, tax_amount := .undefined
    total := .undefined, supplier_id := none, extra := [] }

/-- Page 1 of the spec scenario: records A and B, 2 of 5 files handled. -/
def scenarioPage1 : ProcessResponse :=
  { results := [mkDoc "A", mkDoc "B"], errors := [], total_files := 5
    files_handled := 2, vat_rate := none }

/-- Page 2 of the spec scenario: records C, D, E, one OCR error string. -/
def scenarioPage2 : ProcessResponse :=
  { results := [mkDoc "C", mkDoc "D", mkDoc "E"], errors := ["E failed OCR"]
    total_files := 5, files_handled := 3, vat_rate := none }

/-- The stationary page of the non-advancing-cursor scenario: the server
keeps answering `files_handled = 0` with one file outstanding. -/
def stationaryPage : ProcessResponse :=
  { results := [], errors := [], total_files := 1, files_handled := 0
    vat_rate := none }

/-- The one successful row of the commit counterexamples. -/
def rowOk : SaveRow :=
  { index := 0, invoice_number := "A", inserted_id := some 10
    supplier_id := none, is_update := false, conflict := false, error := none }

/-- The one failing row of the commit counterexamples. -/
def rowErr : SaveRow :=
  { index := 1, invoice_number := "B", inserted_id := none
    supplier_id := none, is_update := false, conflict := false
    error := some "insert failed" }

/-- A clear conflict-check response. -/
def noConflict : ConflictCheckResponse := { has_conflicts := false, conflicts := [] }

/-! ## Basic lemmas about the embedded primitives -/

/-- Rounding to two decimals moves a value by at most half a cent. -/
theorem round2q_sub_abs_le (q : ℚ) : |round2q q - q| ≤ 1 / 200 := by
  have h := abs_sub_round (q * 100)
  have e : round2q q - q = -((q * 100 - (round (q * 100) : ℚ)) / 100) := by
    unfold round2q; ring
  rw [e, abs_neg, abs_div, abs_of_pos (by norm_num : (0 : ℚ) < 100)]
  linarith

/-- Helper `round2` only ever returns a finite number or `undefined`. -/
theorem round2_finiteOrAbsent (v : JSVal) : finiteOrAbsent (round2 v) = true := by
  cases v <;> rfl

/-- Inversion: a finite `round2` output comes from a finite input. -/
theorem round2_eq_num {v : JSVal} {q : ℚ} (h : round2 v = .num q) :
    ∃ p, v = .num p ∧ q = round2q p := by
  cases v <;> simp [round2] at h
  exact ⟨_, rfl, h.symm⟩

/-- Inversion: `jadd` returns a finite number only on finite operands. -/
theorem jadd_eq_num {a b : JSVal} {p : ℚ} (h : jadd a b = .num p) :
    ∃ qa qb, a = .num qa ∧ b = .num qb ∧ p = qa + qb := by
  cases a <;> cases b <;> simp [jadd] at h
  exact ⟨_, _, rfl, rfl, h.symm⟩

/-- Inversion: `jsub` returns a finite number only on finite operands. -/
theorem jsub_eq_num {a b : JSVal} {p : ℚ} (h : jsub a b = .num p) :
    ∃ qa qb, a = .num qa ∧ b = .num qb ∧ p = qa - qb := by
  cases a <;> cases b <;> simp [jsub] at h
  exact ⟨_, _, rfl, rfl, h.symm⟩

/-- Inversion: `jmul` with a finite right operand returns a finite number
only from a finite left operand. -/
theorem jmul_num_eq_num {a : JSVal} {r p : ℚ} (h : jmul a (.num r) = .num p) :
    ∃ qa, a = .num qa ∧ p = qa * r := by
  cases a <;> simp [jmul] at h
  case num qa => exact ⟨qa, rfl, h.symm⟩
  all_goals split at h <;> simp_all <;> (split at h <;> simp_all)

/-- Inversion: `jdiv` with a finite right operand returns a finite number
only from a finite left operand and a nonzero divisor. -/
theorem jdiv_num_eq_num {a : JSVal} {r p : ℚ} (h : jdiv a (.num r) = .num p) :
    ∃ qa, a = .num qa ∧ r ≠ 0 ∧ p = qa / r := by
  cases a <;> simp [jdiv] at h
  case num qa =>
    rcases eq_or_ne r 0 with hr | hr
    · rw [if_pos hr] at h
      split at h <;> simp_all <;> (split at h <;> simp_all)
    · rw [if_neg hr] at h
      exact ⟨qa, rfl, hr, by simpa using h.symm⟩
  all_goals split at h <;> simp_all

/-- The fallback `v || 0` is the identity on finite numbers (a falsy `0` is replaced by
the same value `0`). -/
theorem orZero_num (q : ℚ) : orZero (.num q) = .num q := by
  by_cases h : q = 0 <;> simp [orZero, truthy, h]

/-- Evaluation of `handleUpdateResult` on a `subtotal` edit to a finite number. -/
theorem handleUpdateResult_subtotal_num (rate : ℚ) (inv : InvoiceData) (s : ℚ) :
    handleUpdateResult rate inv .subtotal (.num s) =
      { inv with
        subtotal := .num s
        tax_amount := .num (round2q (s * rate))
        total := .num (round2q (s + round2q (s * rate))) } := rfl

/-- Evaluation of `handleUpdateResult` on a `tax_amount` edit to a finite number, with a
nonzero rate. -/
theorem handleUpdateResult_tax_num (rate : ℚ) (inv : InvoiceData) (t : ℚ)
    (hr : rate ≠ 0) :
    handleUpdateResult rate inv .tax_amount (.num t) =
      { inv with
        tax_amount := .num t
        subtotal := .num (round2q (t / rate))
        total := .num (round2q (round2q (t / rate) + t)) } := by
  simp [handleUpdateResult, setField, isNumber, jdiv, jadd, coalesce0, round2, hr]

/-- Evaluation of `handleUpdateResult` on a `tax_amount` edit to a finite number with rate
zero: the division produces a non-finite value, which `round2` stores as
`undefined`; `total` is still recomputed as `round2(0 + taxAmount)`. -/
theorem handleUpdateResult_tax_zero_rate (inv : InvoiceData) (t : ℚ) :
    handleUpdateResult 0 inv .tax_amount (.num t) =
      { inv with
        tax_amount := .num t
        subtotal := .undefined
        total := .num (round2q t) } := by
  rcases lt_trichotomy t 0 with h | h | h <;>
    simp [handleUpdateResult, setField, isNumber, jdiv, jadd, coalesce0,
      round2, h, not_lt_of_lt, lt_asymm] <;>
    simp [lt_asymm h, ne_of_lt h, ne_of_gt h]

/-- Evaluation of `handleUpdateResult` on a `total` edit to a finite number, with
`1 + rate ≠ 0`. -/
theorem handleUpdateResult_total_num (rate : ℚ) (inv : InvoiceData) (u : ℚ)
    (hr : 1 + rate ≠ 0) :
    handleUpdateResult rate inv .total (.num u) =
      { inv with
        total := .num u
        subtotal := .num (round2q (u / (1 + rate)))
        tax_amount := .num (round2q (round2q (u / (1 + rate)) * rate)) } := by
  simp [handleUpdateResult, setField, isNumber, jdiv, jmul, coalesce0, round2, hr]

/-- If `round2q x = y` then `y` is within half a cent of `x`. -/
theorem abs_round2q_bound (x y : ℚ) (h : round2q x = y) : |y - x| ≤ 1 / 200 :=
  h ▸ round2q_sub_abs_le x

/-- Variant of `abs_round2q_bound` with the difference reversed. -/
theorem abs_round2q_bound' (x y : ℚ) (h : round2q x = y) : |x - y| ≤ 1 / 200 := by
  rw [abs_sub_comm]; exact abs_round2q_bound x y h

/-- Evaluation of `handleUpdateResultP6` on a `total` edit when the record's tax amount is
a truthy (nonzero) number: `subtotal` is recomputed as
`round2(total - taxAmount)` and the other two fields keep their values. -/
theorem handleUpdateResultP6_total_tax_set (rate : ℚ) (inv : InvoiceData)
    (t v : ℚ) (ht : inv.tax_amount = .num t) (hnz : t ≠ 0) :
    (handleUpdateResultP6 rate inv .total (.num v)).subtotal
        = .num (round2q (v - t)) ∧
    (handleUpdateResultP6 rate inv .total (.num v)).tax_amount = .num t ∧
    (handleUpdateResultP6 rate inv .total (.num v)).total = .num v := by
  simp [handleUpdateResultP6, setField, numOr0, isNumber, jsub, truthy, ht,
    hnz, round2]

/-- C1 (amended): after an edit of `subtotal`, `tax_amount` or `total` that
leaves all three fields numeric, the reconciliation drift
`|total - (subtotal + taxAmount)|` is at most 0.005 (attained at exact
half-cent boundaries, hence non-strict) — except for `total` edits through
the UploadPage.tsx reconciler, which derives `taxAmount` from the rounded
`subtotal` instead of from `total`, so the two rounding errors compound to a
bound of `(1 + |1 + rate|) / 200`.  The part_006 reconciler obeys the 0.005
bound on every edit of the three fields. -/
theorem reconcile_invariant_bound (rate : ℚ) (inv : InvoiceData) (f : Field)
    (v : JSVal) :
    (∀ s t u : ℚ,
      (handleUpdateResult rate inv f v).subtotal = .num s →
      (handleUpdateResult rate inv f v).tax_amount = .num t →
      (handleUpdateResult rate inv f v).total = .num u →
      ((f = .subtotal ∨ f = .tax_amount) → |u - (s + t)| ≤ 1 / 200) ∧
      (f = .total → |u - (s + t)| ≤ (1 + |1 + rate|) / 200)) ∧
    (∀ s t u : ℚ,
      (f = .subtotal ∨ f = .tax_amount ∨ f = .total) →
      (handleUpdateResultP6 rate inv f v).subtotal = .num s →
      (handleUpdateResultP6 rate inv f v).tax_amount = .num t →
      (handleUpdateResultP6 rate inv f v).total = .num u →
      |u - (s + t)| ≤ 1 / 200) := by
  constructor
  · intro s t u hs ht hu
    cases f with
    | subtotal =>
      refine ⟨fun _ => ?_, by simp⟩
      cases v with
      | num s0 =>
        rw [handleUpdateResult_subtotal_num] at hs ht hu
        simp at hs ht hu
        have hsum : round2q (s + t) = u := by rw [← hs, ← ht]; exact hu
        exact abs_round2q_bound (s + t) u hsum
      | nan =>
        simp [handleUpdateResult, setField, isNumber, jmul, round2] at ht
      | inf =>
        simp [handleUpdateResult, setField, isNumber] at ht
        obtain ⟨p, hp, -⟩ := round2_eq_num ht
        obtain ⟨qa, hqa, -⟩ := jmul_num_eq_num hp
        exact absurd hqa (by simp)
      | ninf =>
        simp [handleUpdateResult, setField, isNumber] at ht
        obtain ⟨p, hp, -⟩ := round2_eq_num ht
        obtain ⟨qa, hqa, -⟩ := jmul_num_eq_num hp
        exact absurd hqa (by simp)
      | undefined => simp [handleUpdateResult, setField, isNumber] at hs
      | str s' => simp [handleUpdateResult, setField, isNumber] at hs
    | tax_amount =>
      refine ⟨fun _ => ?_, by simp⟩
      cases v with
      | num t0 =>
        by_cases hr : rate = 0
        · subst hr
          rw [handleUpdateResult_tax_zero_rate] at hs
          simp at hs
        · rw [handleUpdateResult_tax_num _ _ _ hr] at hs ht hu
          simp at hs ht hu
          have hsum : round2q (s + t) = u := by rw [← hs, ← ht]; exact hu
          exact abs_round2q_bound (s + t) u hsum
      | nan => simp [handleUpdateResult, setField, isNumber] at ht
      | inf => simp [handleUpdateResult, setField, isNumber] at ht
      | ninf => simp [handleUpdateResult, setField, isNumber] at ht
      | undefined => simp [handleUpdateResult, setField, isNumber] at ht
      | str s' => simp [handleUpdateResult, setField, isNumber] at ht
    | total =>
      refine ⟨by simp, fun _ => ?_⟩
      cases v with
      | num u0 =>
        by_cases hr : 1 + rate = 0
        · rcases lt_trichotomy u0 0 with h0 | h0 | h0 <;>
            simp [handleUpdateResult, setField, isNumber, jdiv, hr, h0,
              ne_of_lt, ne_of_gt, lt_asymm, round2] at hs
        · rw [handleUpdateResult_total_num _ _ _ hr] at hs ht hu
          simp at hs ht hu
          rw [hu] at hs ht
          rw [hs] at ht
          have h1 : |s - u / (1 + rate)| ≤ 1 / 200 :=
            abs_round2q_bound _ _ hs
          have h2 : |t - s * rate| ≤ 1 / 200 :=
            abs_round2q_bound _ _ ht
          have key : u - (s + t) =
              -((s - u / (1 + rate)) * (1 + rate)) - (t - s * rate) := by
            field_simp
            ring
          rw [key]
          have htri : |(-((s - u / (1 + rate)) * (1 + rate))) - (t - s * rate)|
              ≤ |(s - u / (1 + rate)) * (1 + rate)| + |t - s * rate| := by
            rw [sub_eq_add_neg]
            refine (abs_add _ _).trans ?_
            rw [abs_neg, abs_neg]
          refine htri.trans ?_
          rw [abs_mul]
          have hm : |s - u / (1 + rate)| * |1 + rate| ≤ (1 / 200) * |1 + rate| :=
            mul_le_mul_of_nonneg_right h1 (abs_nonneg _)
          have hnn : (0 : ℚ) ≤ |1 + rate| := abs_nonneg _
          linarith
      | nan => simp [handleUpdateResult, setField, isNumber] at hu
      | inf => simp [handleUpdateResult, setField, isNumber] at hu
      | ninf => simp [handleUpdateResult, setField, isNumber] at hu
      | undefined => simp [handleUpdateResult, setField, isNumber] at hu
      | str s' => simp [handleUpdateResult, setField, isNumber] at hu
    | other n => exact ⟨by simp, by simp⟩
  · intro s t u hf hs ht hu
    cases f with
    | subtotal =>
      simp [handleUpdateResultP6, setField] at hs ht hu
      subst hs
      rw [ht] at hu
      simp [numOr0, isNumber, jadd, round2] at hu
      exact abs_round2q_bound (s + t) u hu
    | tax_amount =>
      simp [handleUpdateResultP6, setField] at hs ht hu
      subst ht
      rw [hu] at hs
      simp [numOr0, isNumber, jsub, round2] at hs
      have : u - (s + t) = (u - t) - s := by ring
      rw [this]
      exact abs_round2q_bound' (u - t) s hs
    | total =>
      by_cases htr : truthy inv.tax_amount
      · simp [handleUpdateResultP6, setField, htr] at hs ht hu
        subst hu
        rw [ht] at hs
        simp [numOr0, isNumber, jsub, round2] at hs
        have e : u - (s + t) = (u - t) - s := by ring
        rw [e]
        exact abs_round2q_bound' (u - t) s hs
      · simp [handleUpdateResultP6, setField, htr] at hs ht hu
        subst hu
        rw [hs, orZero_num] at ht
        simp [numOr0, isNumber, jsub, round2] at ht
        have e : u - (s + t) = (u - s) - t := by ring
        rw [e]
        exact abs_round2q_bound' (u - s) t ht
    | other n => simp at hf

/-- C1 (counterexample): editing `total` to 0.23128 with the default rate
0.18 through the UploadPage.tsx reconciler leaves all three fields numeric
(`subtotal = 0.20`, `taxAmount = 0.04`, `total = 0.23128`) with
`|total - (subtotal + taxAmount)| = 0.00872`, which is not `< 0.005`. -/
theorem reconcile_strict_invariant_cex :
    (handleUpdateResult (18 / 100) (mkDoc "a") .total (.num (2891 / 12500))).subtotal
        = .num (1 / 5) ∧
    (handleUpdateResult (18 / 100) (mkDoc "a") .total (.num (2891 / 12500))).tax_amount
        = .num (1 / 25) ∧
    (handleUpdateResult (18 / 100) (mkDoc "a") .total (.num (2891 / 12500))).total
        = .num (2891 / 12500) ∧
    ¬ (|(2891 / 12500 : ℚ) - (1 / 5 + 1 / 25)| < 5 / 1000) := by
  have hr : (1 : ℚ) + 18 / 100 ≠ 0 := by norm_num
  rw [handleUpdateResult_total_num _ _ _ hr]
  refine ⟨?_, ?_, rfl, ?_⟩
  · exact congrArg JSVal.num (by norm_num [round2q, round_eq])
  · exact congrArg JSVal.num (by norm_num [round2q, round_eq])
  · have e : (2891 / 12500 : ℚ) - (1 / 5 + 1 / 25) = -(109 / 12500) := by
      norm_num
    rw [e, abs_neg, abs_of_pos (by norm_num : (0 : ℚ) < 109 / 12500)]
    norm_num

/-- C1 (witness): the subtotal edit `subtotal → 100` at rate 0.18 yields
taxAmount 18, total 118, and the reconciliation drift is within 0.005. -/
theorem reconcile_invariant_bound_witness :
    |(118 : ℚ) - (100 + 18)| ≤ 1 / 200 := by
  have hsub : (handleUpdateResult (18 / 100) (mkDoc "w") .subtotal
      (.num 100)).subtotal = .num 100 := by
    rw [handleUpdateResult_subtotal_num]
  have htax : (handleUpdateResult (18 / 100) (mkDoc "w") .subtotal
      (.num 100)).tax_amount = .num 18 := by
    rw [handleUpdateResult_subtotal_num]
    exact congrArg JSVal.num (by norm_num [round2q, round_eq])
  have htot : (handleUpdateResult (18 / 100) (mkDoc "w") .subtotal
      (.num 100)).total = .num 118 := by
    rw [handleUpdateResult_subtotal_num]
    exact congrArg JSVal.num (by norm_num [round2q, round_eq])
  exact ((reconcile_invariant_bound (18 / 100) (mkDoc "w") .subtotal
    (.num 100)).1 100 18 118 hsub htax htot).1 (Or.inl rfl)

/-- C2 (amended): in the part_006 reconciler, for a record whose `taxAmount`
is a nonzero number (a zero `taxAmount` is falsy in JavaScript and takes the
rate-based reconstruction branch instead), editing `total` to a numeric `v`
recomputes `subtotal = round2(v - taxAmount)`, keeps `taxAmount`, and stores
`v` as `total`. -/
theorem edit_total_with_tax_set (rate : ℚ) (inv : InvoiceData) (t v : ℚ)
    (ht : inv.tax_amount = .num t) (hnz : t ≠ 0) :
    (handleUpdateResultP6 rate inv .total (.num v)).subtotal
        = .num (round2q (v - t)) ∧
    (handleUpdateResultP6 rate inv .total (.num v)).tax_amount = .num t ∧
    (handleUpdateResultP6 rate inv .total (.num v)).total = .num v :=
  handleUpdateResultP6_total_tax_set rate inv t v ht hnz

/-- C2 (counterexample): a record whose `taxAmount` is the numeric value 0
does not get `subtotal = round2(total - taxAmount)`: editing `total → 118`
at rate 0.18 stores `subtotal = 100` (the zero tax amount is falsy, so the
rate-based branch reconstructs from `total / 1.18`), not `round2(118 - 0) =
118`. -/
theorem edit_total_zero_tax_cex :
    ({ mkDoc "a" with tax_amount := JSVal.num 0 } : InvoiceData).tax_amount
        = .num 0 ∧
    (handleUpdateResultP6 (18 / 100) { mkDoc "a" with tax_amount := JSVal.num 0 }
        .total (.num 118)).subtotal = .num 100 ∧
    (100 : ℚ) ≠ round2q (118 - 0) := by
  refine ⟨rfl, ?_, ?_⟩
  · have hr : (1 : ℚ) + 18 / 100 ≠ 0 := by norm_num
    simp [handleUpdateResultP6, setField, mkDoc, numOr0, isNumber, jsub, jdiv,
      truthy, orZero, round2, hr]
    norm_num [round2q, round_eq]
  · have : round2q (118 - 0) = 118 := by norm_num [round2q, round_eq]
    rw [this]
    norm_num

/-- C2 (witness): the spec scenario — a record reconciled to
`subtotal = 100, taxAmount = 18, total = 118` at rate 0.18; editing
`total → 200` yields `subtotal = 182.00`. -/
theorem edit_total_with_tax_set_witness :
    (handleUpdateResultP6 (18 / 100)
        (handleUpdateResult (18 / 100) (mkDoc "inv") .subtotal (.num 100))
        .total (.num 200)).subtotal = .num 182 := by
  have ht : (handleUpdateResult (18 / 100) (mkDoc "inv") .subtotal
      (.num 100)).tax_amount = .num 18 := by
    rw [handleUpdateResult_subtotal_num]
    exact congrArg JSVal.num (by norm_num [round2q, round_eq])
  have h := (edit_total_with_tax_set (18 / 100)
    (handleUpdateResult (18 / 100) (mkDoc "inv") .subtotal (.num 100))
    18 200 ht (by norm_num)).1
  rw [h]
  exact congrArg JSVal.num (by norm_num [round2q, round_eq])

/-- C6 (amended): editing `taxAmount` to a numeric value while the active
rate is 0 does not leave `subtotal` unchanged: the unguarded division
`taxAmount / 0` produces a non-finite value that `round2` stores as absent,
so `subtotal` becomes `undefined`; `total` is still recomputed, as
`round2(0 + taxAmount)`. -/
theorem zero_rate_tax_edit (inv : InvoiceData) (t : ℚ) :
    (handleUpdateResult 0 inv .tax_amount (.num t)).subtotal = .undefined ∧
    (handleUpdateResult 0 inv .tax_amount (.num t)).tax_amount = .num t ∧
    (handleUpdateResult 0 inv .tax_amount (.num t)).total = .num (round2q t) := by
  rw [handleUpdateResult_tax_zero_rate]
  exact ⟨rfl, rfl, rfl⟩

/-- C6 (counterexample): a record with `subtotal = 100` whose `taxAmount` is
edited to 18 at rate 0 ends with `subtotal = undefined`, not the unchanged
value 100. -/
theorem zero_rate_tax_edit_cex :
    ({ mkDoc "a" with subtotal := JSVal.num 100 } : InvoiceData).subtotal
        = .num 100 ∧
    (handleUpdateResult 0 { mkDoc "a" with subtotal := JSVal.num 100 }
        .tax_amount (.num 18)).subtotal ≠ .num 100 := by
  refine ⟨rfl, ?_⟩
  rw [handleUpdateResult_tax_zero_rate]
  simp

/-- C9: for both reconcilers and any edit, each of the three financial
fields other than the verbatim-assigned edited one is either untouched or
recomputed through `round2`, hence stored as a finite number or as absent —
never as `NaN` or `±Infinity`. -/
theorem derived_value_never_nonfinite (rate : ℚ) (inv : InvoiceData)
    (f : Field) (v : JSVal) :
    (f ≠ .subtotal →
      (finiteOrAbsent (handleUpdateResult rate inv f v).subtotal = true ∨
        (handleUpdateResult rate inv f v).subtotal = inv.subtotal) ∧
      (finiteOrAbsent (handleUpdateResultP6 rate inv f v).subtotal = true ∨
        (handleUpdateResultP6 rate inv f v).subtotal = inv.subtotal)) ∧
    (f ≠ .tax_amount →
      (finiteOrAbsent (handleUpdateResult rate inv f v).tax_amount = true ∨
        (handleUpdateResult rate inv f v).tax_amount = inv.tax_amount) ∧
      (finiteOrAbsent (handleUpdateResultP6 rate inv f v).tax_amount = true ∨
        (handleUpdateResultP6 rate inv f v).tax_amount = inv.tax_amount)) ∧
    (f ≠ .total →
      (finiteOrAbsent (handleUpdateResult rate inv f v).total = true ∨
        (handleUpdateResult rate inv f v).total = inv.total) ∧
      (finiteOrAbsent (handleUpdateResultP6 rate inv f v).total = true ∨
        (handleUpdateResultP6 rate inv f v).total = inv.total)) := by
  by_cases hnv : isNumber v <;>
    by_cases htr : truthy inv.tax_amount <;>
      cases f <;>
        refine ⟨fun h1 => ⟨?_, ?_⟩, fun h2 => ⟨?_, ?_⟩, fun h3 => ⟨?_, ?_⟩⟩ <;>
          simp_all [handleUpdateResult, handleUpdateResultP6, setField,
            round2_finiteOrAbsent]

/-- C9 (witness): an edit of `total` to `NaN` (a `typeof number` value) at
rate 0.18 leaves the untouched-or-finite-or-absent property for the other
two fields of a blank record. -/
theorem derived_value_never_nonfinite_witness :
    (finiteOrAbsent (handleUpdateResult (18 / 100) (mkDoc "n") .total
        .nan).subtotal = true ∨
      (handleUpdateResult (18 / 100) (mkDoc "n") .total .nan).subtotal
        = (mkDoc "n").subtotal) ∧
    (finiteOrAbsent (handleUpdateResult (18 / 100) (mkDoc "n") .total
        .nan).tax_amount = true ∨
      (handleUpdateResult (18 / 100) (mkDoc "n") .total .nan).tax_amount
        = (mkDoc "n").tax_amount) :=
  ⟨((derived_value_never_nonfinite (18 / 100) (mkDoc "n") .total .nan).1
      (by simp)).1,
    (((derived_value_never_nonfinite (18 / 100) (mkDoc "n") .total .nan).2.1
      (by simp))).1⟩

/-! ## Extraction-loop theorems (C4, C7) -/

/-- The cursor state after one page keeps the latched total: it is the first
page's `total_files` when still unlatched, and the old total otherwise. -/
theorem stepPage_totalFiles (T : ℕ) (st : LoopState) (p : ProcessResponse)
    (hp : p.total_files = T) (h : st.totalFiles = 0 ∨ st.totalFiles = T) :
    (stepPage st p).totalFiles = T := by
  simp only [stepPage]
  split_ifs with h0
  · exact hp
  · rcases h with h | h
    · exact absurd h h0
    · exact h

/-- Appending a page's errors is unconditional in effect: pushing an empty
error list is the identity. -/
theorem stepPage_allErrors (st : LoopState) (p : ProcessResponse) :
    (stepPage st p).allErrors = st.allErrors ++ p.errors := by
  simp only [stepPage]
  split_ifs with h
  · rfl
  · have : p.errors = [] := List.length_eq_zero.mp (Nat.eq_zero_of_not_pos h)
    simp [this]

/-- A consistent page script — every page reports the same `total_files` and
a positive `files_handled`, and together the pages cover exactly the files
remaining from the cursor position — drives the do-while loop to completion,
delivering the concatenation of all pages' records and error strings in
arrival order, with one request per page. -/
theorem runPages_completed (T : ℕ) :
    ∀ (pages : List ProcessResponse) (st : LoopState),
      pages ≠ [] →
      (∀ p ∈ pages, p.total_files = T) →
      (∀ p ∈ pages, 1 ≤ p.files_handled) →
      (st.totalFiles = 0 ∨ st.totalFiles = T) →
      st.startingPoint + (pages.map ProcessResponse.files_handled).sum = T →
      ∃ st', runPages pages st = .completed st' ∧
        st'.allResults = st.allResults ++ (pages.map ProcessResponse.results).flatten ∧
        st'.allErrors = st.allErrors ++ (pages.map ProcessResponse.errors).flatten ∧
        st'.requests = st.requests + pages.length := by
  intro pages
  induction pages with
  | nil => intro st h; exact absurd rfl h
  | cons p ps ih =>
    intro st _ htot hfh hlatch hsum
    have hpT : p.total_files = T := htot p (List.mem_cons_self p ps)
    have hT : (stepPage st p).totalFiles = T := stepPage_totalFiles T st p hpT hlatch
    have hsp : (stepPage st p).startingPoint = st.startingPoint + p.files_handled := rfl
    cases ps with
    | nil =>
      have hstop : ¬ (stepPage st p).startingPoint < (stepPage st p).totalFiles := by
        rw [hsp, hT]
        simp only [List.map_cons, List.map_nil, List.sum_cons, List.sum_nil,
          Nat.add_zero] at hsum
        omega
      refine ⟨stepPage st p, ?_, ?_, ?_, ?_⟩
      · simp only [runPages]
        rw [if_neg hstop]
      · simp [stepPage]
      · rw [stepPage_allErrors]
        simp
      · simp [stepPage]
    | cons q qs =>
      have hcont : (stepPage st p).startingPoint < (stepPage st p).totalFiles := by
        rw [hsp, hT]
        have hq : 1 ≤ q.files_handled := hfh q (by simp)
        have hqs : ∀ r ∈ qs, 1 ≤ r.files_handled :=
          fun r hr => hfh r (by simp [hr])
        have hsum' := hsum
        simp only [List.map_cons, List.sum_cons] at hsum'
        have : 1 ≤ (q.files_handled + (qs.map ProcessResponse.files_handled).sum) := by
          omega
        omega
      have ihres := ih (stepPage st p)
        (by simp)
        (fun r hr => htot r (List.mem_cons_of_mem p hr))
        (fun r hr => hfh r (List.mem_cons_of_mem p hr))
        (Or.inr hT)
        (by
          rw [hsp]
          simp only [List.map_cons, List.sum_cons] at hsum ⊢
          omega)
      obtain ⟨st', hrun, hres, herr, hreq⟩ := ihres
      refine ⟨st', ?_, ?_, ?_, ?_⟩
      · simp only [runPages]
        rw [if_pos hcont]
        exact hrun
      · rw [hres]
        simp [stepPage, List.append_assoc]
      · rw [herr, stepPage_allErrors]
        simp [List.append_assoc]
      · rw [hreq]
        simp [stepPage]
        omega

/-- A list of positive naturals is at least as long as its sum. -/
theorem length_le_sum_of_one_le :
    ∀ l : List ℕ, (∀ x ∈ l, 1 ≤ x) → l.length ≤ l.sum := by
  intro l
  induction l with
  | nil => simp
  | cons a as ih =>
    intro h
    have ha := h a (List.mem_cons_self a as)
    have has := ih (fun x hx => h x (List.mem_cons_of_mem a hx))
    simp only [List.length_cons, List.sum_cons]
    omega

/-- C4: for a consistent page script (every page reports the same
`total_files = T` and `files_handled ≥ 1`, and the handled counts sum to
`T`), `handleFilesSelected`'s loop terminates with at most `T` requests —
exactly one per page — accumulating the concatenation of all pages' records
in arrival order and the concatenation of all pages' error strings. -/
theorem extraction_pagination (T : ℕ) (pages : List ProcessResponse)
    (h1 : pages ≠ [])
    (h2 : ∀ p ∈ pages, p.total_files = T)
    (h3 : ∀ p ∈ pages, 1 ≤ p.files_handled)
    (h4 : (pages.map ProcessResponse.files_handled).sum = T) :
    pages.length ≤ T ∧
    ∃ st', runPages pages initLoopState = .completed st' ∧
      st'.allResults = (pages.map ProcessResponse.results).flatten ∧
      st'.allErrors = (pages.map ProcessResponse.errors).flatten ∧
      st'.requests = pages.length := by
  have hlen : pages.length ≤ T := by
    have := length_le_sum_of_one_le (pages.map ProcessResponse.files_handled)
      (by
        intro x hx
        obtain ⟨p, hp, rfl⟩ := List.mem_map.mp hx
        exact h3 p hp)
    rw [h4] at this
    simpa using this
  obtain ⟨st', hrun, hres, herr, hreq⟩ :=
    runPages_completed T pages initLoopState h1 h2 h3 (Or.inl rfl)
      (by simpa [initLoopState] using h4)
  refine ⟨hlen, st', hrun, ?_, ?_, ?_⟩
  · rw [hres]; rfl
  · rw [herr]; rfl
  · rw [hreq]; simp [initLoopState]

/-- C4 (witness): the two-page scenario ends with session
`[A, B, C, D, E]`, error list `["E failed OCR"]` and exactly 2 requests. -/
theorem extraction_pagination_witness :
    [scenarioPage1, scenarioPage2].length ≤ 5 ∧
    ∃ st', runPages [scenarioPage1, scenarioPage2] initLoopState
        = .completed st' ∧
      st'.allResults = [mkDoc "A", mkDoc "B", mkDoc "C", mkDoc "D", mkDoc "E"] ∧
      st'.allErrors = ["E failed OCR"] ∧
      st'.requests = 2 := by
  obtain ⟨hlen, st', hrun, hres, herr, hreq⟩ :=
    extraction_pagination 5 [scenarioPage1, scenarioPage2]
      (by simp)
      (by simp [scenarioPage1, scenarioPage2])
      (by simp [scenarioPage1, scenarioPage2])
      (by simp [scenarioPage1, scenarioPage2])
  refine ⟨hlen, st', hrun, ?_, ?_, hreq⟩
  · rw [hres]; rfl
  · rw [herr]; rfl

/-- From a cursor stuck at 0 with one file outstanding, the loop is still
running after any number of iterations. -/
theorem runOracle_stationary_aux :
    ∀ (fuel : ℕ) (st : LoopState),
      st.startingPoint = 0 → (st.totalFiles = 0 ∨ st.totalFiles = 1) →
      ∃ st', runOracle (fun _ => stationaryPage) fuel st = .running st' := by
  intro fuel
  induction fuel with
  | zero => intro st _ _; exact ⟨st, rfl⟩
  | succ n ih =>
    intro st h0 h1
    have hsp : (stepPage st stationaryPage).startingPoint = 0 := by
      simp [stepPage, stationaryPage, h0]
    have htf : (stepPage st stationaryPage).totalFiles = 1 := by
      rcases h1 with h | h <;> simp [stepPage, stationaryPage, h]
    have hcond : (stepPage st stationaryPage).startingPoint
        < (stepPage st stationaryPage).totalFiles := by
      rw [hsp, htf]; norm_num
    obtain ⟨st', hst'⟩ := ih (stepPage st stationaryPage) hsp (Or.inr htf)
    refine ⟨st', ?_⟩
    simp only [runOracle]
    rw [if_pos hcond]
    exact hst'

/-- C7: the loop has no guard against a non-advancing cursor.  Against a
server that always answers `{totalFiles: 1, filesHandled: 0}` the loop is
still running after any number of iterations: it neither raises a fatal
error nor terminates within any bound. -/
theorem stationary_page_loops_forever (fuel : ℕ) :
    ∃ st, runOracle (fun _ => stationaryPage) fuel initLoopState
      = .running st :=
  runOracle_stationary_aux fuel initLoopState rfl (Or.inl rfl)

/-! ## Commit-flow theorems (C3, C5, C8, C10) -/

/-- Index-based filtering commutes with `map`. -/
theorem filterIdxAux_map {α β : Type} (p : ℕ → Bool) (f : α → β) :
    ∀ (l : List α) (i : ℕ),
      filterIdxAux p i (l.map f) = (filterIdxAux p i l).map f := by
  intro l
  induction l with
  | nil => intro i; rfl
  | cons a as ih =>
    intro i
    simp only [List.map_cons, filterIdxAux]
    split_ifs with h
    · simp [ih]
    · exact ih (i + 1)

/-- Filtering by index commutes with `map`. -/
theorem filterIdx_map {α β : Type} (l : List α) (p : ℕ → Bool) (f : α → β) :
    filterIdx (l.map f) p = (filterIdx l p).map f :=
  filterIdxAux_map p f l 0

/-- C3: whenever the conflict check actually ran and reported
`has_conflicts`, neither `handleSaveSingle` nor `handleSaveAll` invokes
`saveInvoicesBatch` in that attempt. -/
theorem conflict_short_circuit (customerId : Option ℤ)
    (results : List InvoiceData) (savedIds : List (ℕ × ℤ)) (index : ℕ)
    (conflictResp : ConflictCheckResponse) (saveResp : SaveResponse)
    (hc : conflictResp.has_conflicts = true) :
    ((handleSaveSingle customerId results savedIds index conflictResp
        saveResp).conflictChecked = true →
      (handleSaveSingle customerId results savedIds index conflictResp
        saveResp).saveCalled = false) ∧
    ((handleSaveAll customerId results savedIds conflictResp
        saveResp).conflictChecked = true →
      (handleSaveAll customerId results savedIds conflictResp
        saveResp).saveCalled = false) := by
  constructor
  · by_cases hcu : customerTruthy customerId = false
    · simp [handleSaveSingle, hcu]
    · cases hidx : results[index]? with
      | none => simp [handleSaveSingle, hcu, hidx]
      | some r => simp [handleSaveSingle, hcu, hidx, hc]
  · by_cases hg : customerTruthy customerId = false ∨ results = []
    · simp [handleSaveAll, hg]
    · by_cases hu : 0 < (filterIdx results
          (fun idx => !savedTruthy savedIds idx)).length
      · simp [handleSaveAll, hg, hu, hc]
      · intro hchecked
        simp [handleSaveAll, hg, hu, hc,
          apply_ite CommitTrace.conflictChecked] at hchecked

/-- C3 (witness): with a conflicting check response, a concrete single and
batch commit both skip the persistence write. -/
theorem conflict_short_circuit_witness :
    (handleSaveSingle (some 1) [mkDoc "r"] [] 0
        ⟨true, [("INV-1", "duplicate", "already exists")]⟩
        ⟨[]⟩).saveCalled = false ∧
    (handleSaveAll (some 1) [mkDoc "r"] []
        ⟨true, [("INV-1", "duplicate", "already exists")]⟩
        ⟨[]⟩).saveCalled = false := by
  constructor
  · exact (conflict_short_circuit (some 1) [mkDoc "r"] [] 0
      ⟨true, [("INV-1", "duplicate", "already exists")]⟩ ⟨[]⟩ rfl).1 rfl
  · exact (conflict_short_circuit (some 1) [mkDoc "r"] [] 0
      ⟨true, [("INV-1", "duplicate", "already exists")]⟩ ⟨[]⟩ rfl).2 rfl

/-- C5 (amended): once `handleSaveAll`'s write call received a nonempty row
list, the session is cleared in full exactly when the response carries zero
row-level errors; with at least one row error the whole session is retained
unchanged — every record remains, including the successfully persisted
ones. -/
theorem commit_all_session_clearing (customerId : Option ℤ)
    (results : List InvoiceData) (savedIds : List (ℕ × ℤ))
    (conflictResp : ConflictCheckResponse) (saveResp : SaveResponse)
    (hsave : (handleSaveAll customerId results savedIds conflictResp
      saveResp).saveCalled = true)
    (hrows : 0 < saveResp.results.length) :
    ((handleSaveAll customerId results savedIds conflictResp
        saveResp).results = [] ↔ errorCount saveResp = 0) ∧
    (errorCount saveResp ≠ 0 →
      (handleSaveAll customerId results savedIds conflictResp
        saveResp).results = results) := by
  by_cases hgA : customerTruthy customerId = false
  · simp [handleSaveAll, hgA] at hsave
  · by_cases hgB : results = []
    · simp [handleSaveAll, hgB] at hsave
    · by_cases hb : conflictResp.has_conflicts = true
      · by_cases hu : 0 < (filterIdx results
            (fun idx => !savedTruthy savedIds idx)).length
        · simp [handleSaveAll, hgA, hgB, hb, hu] at hsave
        · by_cases he : errorCount saveResp = 0
          · simp [handleSaveAll, hgA, hgB, hb, hu, hrows, he]
          · simp [handleSaveAll, hgA, hgB, hb, hu, hrows, he]
      · by_cases hu : 0 < (filterIdx results
            (fun idx => !savedTruthy savedIds idx)).length <;>
          by_cases he : errorCount saveResp = 0 <;>
            simp [handleSaveAll, hgA, hgB, hb, hu, hrows, he]

/-- C5 (counterexample): a two-record batch whose write response has one
success and one row error keeps the session at both records — not at
exactly the failing record, as the claim states. -/
theorem commit_all_retention_cex :
    errorCount ⟨[rowOk, rowErr]⟩ = 1 ∧
    (handleSaveAll (some 1) [mkDoc "A", mkDoc "B"] [] noConflict
        ⟨[rowOk, rowErr]⟩).results = [mkDoc "A", mkDoc "B"] ∧
    [mkDoc "A", mkDoc "B"] ≠ [mkDoc "B"] := by
  refine ⟨rfl, rfl, by simp [mkDoc]⟩

/-- C5 (witness): the same batch with an error-free response clears the
session in full. -/
theorem commit_all_session_clearing_witness :
    (handleSaveAll (some 1) [mkDoc "A"] [] noConflict ⟨[rowOk]⟩).results = []
      ∧ errorCount ⟨[rowOk]⟩ = 0 := by
  have h := commit_all_session_clearing (some 1) [mkDoc "A"] [] noConflict
    ⟨[rowOk]⟩ rfl (by norm_num)
  exact ⟨h.1.mpr rfl, rfl⟩

/-- C8 (amended): in `handleSaveAll` the conflict gate receives exactly the
payloads of the records whose index has no truthy `savedInvoiceIds` entry;
`handleSaveSingle`, by contrast, always sends its record's payload to the
gate, whether or not the index is already in the mapping. -/
theorem conflict_gate_filters_saved (customerId : Option ℤ)
    (results : List InvoiceData) (savedIds : List (ℕ × ℤ)) (index : ℕ)
    (conflictResp : ConflictCheckResponse) (saveResp : SaveResponse) :
    (customerTruthy customerId = true → results ≠ [] →
      (handleSaveAll customerId results savedIds conflictResp
          saveResp).conflictPayload
        = (filterIdx results
            (fun idx => !savedTruthy savedIds idx)).map buildPayload) ∧
    (∀ r, results[index]? = some r →
      (handleSaveSingle customerId results savedIds index conflictResp
          saveResp).conflictChecked = true →
      (handleSaveSingle customerId results savedIds index conflictResp
          saveResp).conflictPayload = [buildPayload r]) := by
  constructor
  · intro hcu hres
    have hcu' : ¬ customerTruthy customerId = false := by simp [hcu]
    by_cases hu : 0 < (filterIdx results
        (fun idx => !savedTruthy savedIds idx)).length
    · rw [← filterIdx_map]
      by_cases hb : conflictResp.has_conflicts = true
      · simp [handleSaveAll, hcu', hres, hu, hb]
      · simp [handleSaveAll, hcu', hres, hu, hb,
          apply_ite CommitTrace.conflictPayload]
    · have hempty : filterIdx results (fun idx => !savedTruthy savedIds idx)
          = [] := List.length_eq_zero.mp (Nat.eq_zero_of_not_pos hu)
      rw [hempty]
      simp [handleSaveAll, hcu', hres, hu, hempty,
        apply_ite CommitTrace.conflictPayload]
  · intro r hidx hchecked
    by_cases hcu : customerTruthy customerId = false
    · simp [handleSaveSingle, hcu] at hchecked
    · by_cases hb : conflictResp.has_conflicts = true
      · simp [handleSaveSingle, hcu, hidx, hb]
      · cases hhead : saveResp.results.head? with
        | none => simp [handleSaveSingle, hcu, hidx, hb, hhead]
        | some row =>
          by_cases herr : rowErrTruthy row = true
          · simp [handleSaveSingle, hcu, hidx, hb, hhead, herr]
          · cases hins : row.inserted_id with
            | none => simp [handleSaveSingle, hcu, hidx, hb, hhead, herr, hins]
            | some iid =>
              cases hsup : row.supplier_id with
              | none =>
                simp [handleSaveSingle, hcu, hidx, hb, hhead, herr, hins, hsup]
              | some sid =>
                simp [handleSaveSingle, hcu, hidx, hb, hhead, herr, hins, hsup]

/-- C8 (counterexample): `handleSaveSingle` on a record whose index is
already in the `savedInvoiceIds` mapping still sends that record's payload
to the conflict check. -/
theorem commit_one_conflict_payload_cex :
    savedLookup [(0, 42)] 0 = some 42 ∧
    (handleSaveSingle (some 1) [mkDoc "r"] [(0, 42)] 0 noConflict
        ⟨[]⟩).conflictChecked = true ∧
    (handleSaveSingle (some 1) [mkDoc "r"] [(0, 42)] 0 noConflict
        ⟨[]⟩).conflictPayload = [buildPayload (mkDoc "r")] ∧
    [buildPayload (mkDoc "r")] ≠ ([] : List SaveInvoicePayload) := by
  refine ⟨rfl, rfl, rfl, by simp⟩

/-- C8 (witness): a concrete batch and single commit exercising the amended
statement. -/
theorem conflict_gate_filters_saved_witness :
    (handleSaveAll (some 1) [mkDoc "A"] [] noConflict ⟨[]⟩).conflictPayload
      = (filterIdx [mkDoc "A"]
          (fun idx => !savedTruthy [] idx)).map buildPayload ∧
    (handleSaveSingle (some 1) [mkDoc "A"] [] 0 noConflict
        ⟨[]⟩).conflictPayload = [buildPayload (mkDoc "A")] := by
  have h := conflict_gate_filters_saved (some 1) [mkDoc "A"] [] 0 noConflict ⟨[]⟩
  exact ⟨h.1 rfl (by simp), h.2 (mkDoc "A") rfl rfl⟩

/-- Optional indexing of `mapIdx` applies the indexed function pointwise. -/
theorem getElem?_mapIdx {α β : Type} (l : List α) (f : ℕ → α → β) (j : ℕ) :
    (l.mapIdx f)[j]? = (l[j]?).map (f j) := by
  by_cases h : j < l.length
  · rw [List.getElem?_eq_getElem (by rw [List.length_mapIdx]; exact h),
      List.getElem?_eq_getElem h]
    simp only [Option.map_some']
    congr 1
    exact List.get_mapIdx l f j h
  · rw [List.getElem?_eq_none (by rw [List.length_mapIdx]; omega),
      List.getElem?_eq_none (by omega)]
    rfl

/-- C10: the supplier-id merge never changes the session's length or order;
at every position the record keeps all its fields except that `supplier_id`
becomes the last non-null supplier id of a response row addressing that
position (so rows with a null supplier id or an out-of-range index change
nothing, and positions no row addresses are untouched). -/
theorem merge_supplier_ids_frame (prev : List InvoiceData)
    (rows : List SaveRow) :
    (mergeSupplierIds prev rows).length = prev.length ∧
    ∀ j : ℕ, (mergeSupplierIds prev rows)[j]? =
      (prev[j]?).map (fun r =>
        { r with supplier_id := supplierAfter rows j r.supplier_id }) := by
  induction rows generalizing prev with
  | nil =>
    refine ⟨rfl, fun j => ?_⟩
    have hfun : (fun r : InvoiceData =>
        { r with supplier_id := supplierAfter [] j r.supplier_id }) = id := by
      funext r
      rfl
    rw [hfun, Option.map_id]
    rfl
  | cons row rows ih =>
    have hstep : ∀ (l : List InvoiceData) (j : ℕ),
        (mergeSupplierIds l [row])[j]? = (l[j]?).map (fun r =>
          { r with supplier_id :=
              match row.supplier_id with
              | some sid => if (j : ℤ) = row.index then some sid
                  else r.supplier_id
              | none => r.supplier_id }) := by
      intro l j
      cases hsup : row.supplier_id with
      | none =>
        simp only [mergeSupplierIds, List.foldl_cons, List.foldl_nil, hsup]
        cases l[j]? <;> rfl
      | some sid =>
        simp only [mergeSupplierIds, List.foldl_cons, List.foldl_nil, hsup]
        rw [getElem?_mapIdx]
        cases l[j]? with
        | none => rfl
        | some r =>
          simp only [Option.map_some']
          by_cases hj : (j : ℤ) = row.index <;> simp [hj]
    have hsteplen : ∀ l : List InvoiceData,
        (mergeSupplierIds l [row]).length = l.length := by
      intro l
      cases hsup : row.supplier_id with
      | none =>
        simp only [mergeSupplierIds, List.foldl_cons, List.foldl_nil, hsup]
      | some sid =>
        simp only [mergeSupplierIds, List.foldl_cons, List.foldl_nil, hsup]
        rw [List.length_mapIdx]
    have hunfold : mergeSupplierIds prev (row :: rows)
        = mergeSupplierIds (mergeSupplierIds prev [row]) rows := by
      simp [mergeSupplierIds]
    obtain ⟨ihlen, ihget⟩ := ih (mergeSupplierIds prev [row])
    constructor
    · rw [hunfold, ihlen, hsteplen]
    · intro j
      rw [hunfold, ihget j, hstep prev j]
      rw [Option.map_map]
      cases prev[j]? with
      | none => rfl
      | some r =>
        simp only [Option.map_some', Function.comp_apply]
        cases hsup : row.supplier_id with
        | none => simp [supplierAfter, hsup]
        | some sid =>
          by_cases hj : (j : ℤ) = row.index <;>
            simp [supplierAfter, hsup, hj]

end InvoiceHandler
